import Mathlib

/-!
Shallow embedding of the JNI bridge in `src/jni/native_lib.cpp` (repository
`narutobhati/Flam_RnD_intern`).  The file's active revision (lines 309-553)
defines the bridge entry points; an earlier revision survives as a block
comment at the top of the file.  Images (`cv::Mat`) are modelled as 8-bit
matrices: a row-major byte list together with row count, column count,
channel count and row stride (`step`), matching how every entry point of the
bridge uses them.  Native handles (`jlong` mat addresses) are integers, with
0 the sentinel; the native heap is a partial map from handles to matrices.

A bridge call can return normally, let a C++ exception propagate out of the
`extern "C"` function (which would crash the JVM), or hit undefined
behaviour (dereferencing an invalid handle, or reading/writing outside a
buffer's bounds).  `JniResult` distinguishes the three outcomes.

External OpenCV primitives are treated as follows: the trivial pixel-format
conversions used by `nativeMatToRgbaBytes` (`COLOR_GRAY2RGBA`,
`COLOR_RGB2RGBA`) are modelled concretely; the heavyweight primitives used
by the edge pipeline (`COLOR_RGBA2GRAY`, `Canny`, `COLOR_GRAY2RGBA` on the
edge map) are universally quantified parameters of type
`Mat → Except Unit Mat`, where `Except.error` models the primitive throwing
`cv::Exception`.
-/

/-- An 8-bit image buffer (`cv::Mat` with `CV_8UCn` type): `rows × cols`
pixels of `channels` bytes each, stored row-major in `data`, row `r`
starting at byte offset `r * step`. -/
structure Mat where
  rows : Nat
  cols : Nat
  channels : Nat
  step : Nat
  data : List Nat
deriving DecidableEq

/-- `cv::Mat::empty()`: true when the matrix has no pixels. -/
def Mat.isEmpty (m : Mat) : Bool :=
  m.rows = 0 || m.cols = 0

/-- A matrix whose backing store is consistent with its geometry: the data
covers `rows` rows of `step` bytes and each row's `cols * channels` payload
bytes fit inside its stride. -/
def Mat.wellFormed (m : Mat) : Prop :=
  m.data.length = m.rows * m.step ∧ m.cols * m.channels ≤ m.step

/-- The native heap: which `cv::Mat` object each nonzero handle refers to. -/
def Heap : Type := Int → Option Mat

/-- Heap after storing matrix `m` at handle `a` (in-place mutation of the
object the handle refers to). -/
def updateHeap (heap : Heap) (a : Int) (m : Mat) : Heap :=
  fun x => if x = a then some m else heap x

/-- Heap after `delete`-ing the object at handle `a`. -/
def removeHeap (heap : Heap) (a : Int) : Heap :=
  fun x => if x = a then none else heap x

/-- Outcome of one call to an `extern "C"` bridge entry point: a normal
return value, a C++ exception escaping the function, or undefined
behaviour. -/
inductive JniResult (α : Type) where
  | ret : α → JniResult α
  | thrown : JniResult α
  | ub : JniResult α
deriving DecidableEq

/-- Model of `cv::cvtColor(src, dst, cv::COLOR_GRAY2RGBA)` on a 1-channel
matrix: each gray byte `v` becomes the pixel `(v, v, v, 255)`; the output is
contiguous (stride `cols * 4`). -/
def cvtGray2Rgba (m : Mat) : Mat :=
  { rows := m.rows, cols := m.cols, channels := 4, step := m.cols * 4,
    data := (List.range (m.rows * (m.cols * 4))).map (fun i =>
      let r := i / (m.cols * 4)
      let rem := i % (m.cols * 4)
      let c := rem / 4
      let ch := rem % 4
      if ch = 3 then 255 else m.data.getD (r * m.step + c) 0) }

/-- Model of `cv::cvtColor(src, dst, cv::COLOR_RGB2RGBA)` on a 3-channel
matrix: each pixel `(r, g, b)` becomes `(r, g, b, 255)` (alpha synthesized);
the output is contiguous (stride `cols * 4`). -/
def cvtRgb2Rgba (m : Mat) : Mat :=
  { rows := m.rows, cols := m.cols, channels := 4, step := m.cols * 4,
    data := (List.range (m.rows * (m.cols * 4))).map (fun i =>
      let r := i / (m.cols * 4)
      let rem := i % (m.cols * 4)
      let c := rem / 4
      let ch := rem % 4
      if ch = 3 then 255 else m.data.getD (r * m.step + c * 3 + ch) 0) }

/-- The normalization step of `nativeMatToRgbaBytes` (lines 526-535 of the
active revision): 4-channel mats pass through as a shallow copy, 1-channel
mats go through `COLOR_GRAY2RGBA`, 3-channel mats through `COLOR_RGB2RGBA`,
and any other channel count falls into the `COLOR_BGR2RGBA` branch, which
throws `cv::Exception` for such inputs (`none` here).  In the active
revision that throw is not caught. -/
def matToRgbaNorm (src : Mat) : Option Mat :=
  if src.channels = 4 then some src
  else if src.channels = 1 then some (cvtGray2Rgba src)
  else if src.channels = 3 then some (cvtRgb2Rgba src)
  else none

/-- `std::memcpy(out + pos, src, src.length)`: overwrite `out` starting at
byte offset `pos` with the bytes of `src`. -/
def writeAt (out : List Nat) (pos : Nat) (src : List Nat) : List Nat :=
  out.take pos ++ src ++ out.drop (pos + src.length)

/-- The first `rowBytes` bytes of row `r` of matrix `m`
(`m.ptr<unsigned char>(r)` read for `rowBytes` bytes). -/
def rowSlice (m : Mat) (r rowBytes : Nat) : List Nat :=
  (m.data.drop (r * m.step)).take rowBytes

/-- The copy loop of `nativeMatToRgbaBytes` (lines 542-544 of the active
revision): for `n` remaining rows starting at row index `r`, copy `rowBytes`
bytes from row `r` of `m` to offset `r * rowBytes` of `out`.  The C++ loop
performs no bounds check; a `memcpy` that would read past `m.data` or write
past `out` is undefined behaviour, modelled as `none`. -/
def copyRows (m : Mat) (rowBytes : Nat) : Nat → Nat → List Nat → Option (List Nat)
  | _, 0, out => some out
  | r, n + 1, out =>
      if r * m.step + rowBytes ≤ m.data.length ∧ (r + 1) * rowBytes ≤ out.length then
        copyRows m rowBytes (r + 1) n (writeAt out (r * rowBytes) (rowSlice m r rowBytes))
      else none

/-- The edge pipeline of `nativeProcessImage` / `processImage` (lines
475-477 and 370-376): RGBA-to-gray conversion, then `cv::Canny` with the
fixed thresholds 100 and 200, then gray-to-RGBA expansion of the edge map.
The external primitives are parameters; `Except.error` models a throw. -/
def processPipeline (c2g : Mat → Except Unit Mat) (canny : Nat → Nat → Mat → Except Unit Mat)
    (g2r : Mat → Except Unit Mat) (rgba : Mat) : Except Unit Mat :=
  match c2g rgba with
  | .error e => .error e
  | .ok gray =>
    match canny 100 200 gray with
    | .error e => .error e
    | .ok edges => g2r edges

/-- `Java_com_flam_rnd_utils_OpenCVUtils_nativeProcessImage`, active
revision, `HAVE_OPENCV` path (lines 469-484): sentinel handle fails, empty
mat fails, any `std::exception` from the pipeline is caught and converted to
`false`, otherwise the result is written back in place and `true` is
returned. -/
def nativeProcessImage (c2g : Mat → Except Unit Mat) (canny : Nat → Nat → Mat → Except Unit Mat)
    (g2r : Mat → Except Unit Mat) (heap : Heap) (matAddr : Int) : JniResult (Bool × Heap) :=
  if matAddr = 0 then .ret (false, heap)
  else
    match heap matAddr with
    | none => .ub
    | some rgba =>
      if rgba.isEmpty then .ret (false, heap)
      else
        match processPipeline c2g canny g2r rgba with
        | .ok result => .ret (true, updateHeap heap matAddr result)
        | .error _ => .ret (false, heap)

/-- `Java_com_flam_rnd_MainActivity_processImage`, active revision,
`HAVE_OPENCV` path (lines 356-389): same logic as `nativeProcessImage`,
with extra logging. -/
def processImage (c2g : Mat → Except Unit Mat) (canny : Nat → Nat → Mat → Except Unit Mat)
    (g2r : Mat → Except Unit Mat) (heap : Heap) (matAddr : Int) : JniResult (Bool × Heap) :=
  if matAddr = 0 then .ret (false, heap)
  else
    match heap matAddr with
    | none => .ub
    | some rgba =>
      if rgba.isEmpty then .ret (false, heap)
      else
        match processPipeline c2g canny g2r rgba with
        | .ok result => .ret (true, updateHeap heap matAddr result)
        | .error _ => .ret (false, heap)

/-- `Java_com_flam_rnd_MainActivity_processImage`, stub path when
`HAVE_OPENCV` is undefined (lines 390-394): logs a placeholder message,
ignores the handle and returns `true`. -/
def processImage_stub (_matAddr : Int) : Bool :=
  true

/-- `Java_com_flam_rnd_utils_OpenCVUtils_nativeProcessImage`, stub path when
`HAVE_OPENCV` is undefined (lines 485-487): returns `false`. -/
def nativeProcessImage_stub (_matAddr : Int) : Bool :=
  false

/-- Modelled from OpenCV semantics (the external library, not repository
code): the `cv::Mat(rows, cols, type)` constructor throws for a negative
dimension, while zero dimensions construct a valid empty matrix without
throwing; allocation is assumed to succeed. -/
def cvMatConstructorThrows (rows cols : Int) : Bool :=
  rows < 0 || cols < 0

/-- `Java_com_flam_rnd_utils_OpenCVUtils_nativeCreateMat`, active revision,
`HAVE_OPENCV` path (lines 437-444): `new cv::Mat(height, width, type)`
inside `try`/`catch (...)`; a throw yields the sentinel 0, otherwise the
address of the new object (`freshAddr`, nonzero for a successful `new`) is
returned.  There is no explicit width/height validation in the source. -/
def nativeCreateMat (freshAddr : Int) (width height _ty : Int) : Int :=
  if cvMatConstructorThrows height width then 0 else freshAddr

/-- `nativeCreateMat`, stub path when `HAVE_OPENCV` is undefined (lines
445-448): always the sentinel. -/
def nativeCreateMat_stub (_width _height _ty : Int) : Int :=
  0

/-- `Java_com_flam_rnd_utils_OpenCVUtils_nativeReleaseMat`, active revision,
`HAVE_OPENCV` path (lines 455-459): `delete` the mat only when the handle is
nonzero.  Deleting an invalid nonzero handle is undefined behaviour. -/
def nativeReleaseMat (heap : Heap) (matAddr : Int) : JniResult Heap :=
  if matAddr = 0 then .ret heap
  else
    match heap matAddr with
    | some _ => .ret (removeHeap heap matAddr)
    | none => .ub

/-- `nativeReleaseMat`, stub path when `HAVE_OPENCV` is undefined (lines
460-462): does nothing. -/
def nativeReleaseMat_stub (heap : Heap) (_matAddr : Int) : JniResult Heap :=
  .ret heap

/-- `Java_com_flam_rnd_utils_OpenCVUtils_nativeConvertYUV420ToRGB`, active
revision, `HAVE_OPENCV` path (lines 501-504): the body is the comment
`Conversion code as before...` followed by `return 0; // placeholder` — it
ignores every argument and returns the sentinel. -/
def nativeConvertYUV420ToRGB (_yArr _uArr _vArr : List Nat)
    (_width _height _yStride _uvStride : Int) : Int :=
  0

/-- `nativeConvertYUV420ToRGB`, stub path when `HAVE_OPENCV` is undefined
(lines 505-508): returns the sentinel. -/
def nativeConvertYUV420ToRGB_stub (_yArr _uArr _vArr : List Nat)
    (_width _height _yStride _uvStride : Int) : Int :=
  0

/-- `Java_com_flam_rnd_utils_OpenCVUtils_nativeMatToRgbaBytes`, active
revision, `HAVE_OPENCV` path (lines 515-548): argument guard, empty-mat
guard, format normalization (whose unsupported-format throw is NOT caught in
this revision), then the row-by-row copy loop, which in this revision
performs NO check of the output array's length against
`width * height * 4`.  `GetByteArrayElements` is assumed to succeed. -/
def nativeMatToRgbaBytes (heap : Heap) (matAddr : Int) (outArray : Option (List Nat))
    (width height : Int) : JniResult (Bool × Option (List Nat)) :=
  match outArray with
  | none => .ret (false, none)
  | some out =>
    if matAddr = 0 ∨ width ≤ 0 ∨ height ≤ 0 then .ret (false, some out)
    else
      match heap matAddr with
      | none => .ub
      | some src =>
        if src.isEmpty then .ret (false, some out)
        else
          match matToRgbaNorm src with
          | none => .thrown
          | some rgba =>
            match copyRows rgba (width.toNat * 4) 0 height.toNat out with
            | none => .ub
            | some out2 => .ret (true, some out2)

/-- `nativeMatToRgbaBytes`, stub path when `HAVE_OPENCV` is undefined
(lines 549-552): returns `false`, leaving the array untouched. -/
def nativeMatToRgbaBytes_stub (_heap : Heap) (_matAddr : Int)
    (outArray : Option (List Nat)) (_width _height : Int) : JniResult (Bool × Option (List Nat)) :=
  .ret (false, outArray)

/-! ### Lemmas about the byte-copy primitives -/

theorem length_writeAt {out src : List Nat} {pos : Nat}
    (h : pos + src.length ≤ out.length) :
    (writeAt out pos src).length = out.length := by
  simp only [writeAt, List.length_append, List.length_take, List.length_drop]
  omega

theorem getElem?_writeAt_lt {out src : List Nat} {pos i : Nat}
    (hp : pos + src.length ≤ out.length) (hi : i < pos) :
    (writeAt out pos src)[i]? = out[i]? := by
  have htk : (out.take pos).length = pos := by
    simp only [List.length_take]; omega
  rw [writeAt, List.append_assoc, List.getElem?_append_left (by omega),
    List.getElem?_take_of_lt hi]

theorem getElem?_writeAt_mid {out src : List Nat} {pos i : Nat}
    (hp : pos + src.length ≤ out.length) (h1 : pos ≤ i) (h2 : i < pos + src.length) :
    (writeAt out pos src)[i]? = src[i - pos]? := by
  have htk : (out.take pos).length = pos := by
    simp only [List.length_take]; omega
  rw [writeAt, List.append_assoc, List.getElem?_append_right (by omega), htk,
    List.getElem?_append_left (by omega)]

theorem getElem?_writeAt_ge {out src : List Nat} {pos i : Nat}
    (hp : pos + src.length ≤ out.length) (h : pos + src.length ≤ i) :
    (writeAt out pos src)[i]? = out[i]? := by
  have htk : (out.take pos).length = pos := by
    simp only [List.length_take]; omega
  rw [writeAt, List.append_assoc, List.getElem?_append_right (by omega), htk,
    List.getElem?_append_right (by omega), List.getElem?_drop]
  congr 1
  omega

theorem length_rowSlice {m : Mat} {r rowBytes : Nat}
    (h : r * m.step + rowBytes ≤ m.data.length) :
    (rowSlice m r rowBytes).length = rowBytes := by
  simp only [rowSlice, List.length_take, List.length_drop]
  omega

theorem getElem?_rowSlice {m : Mat} {r rowBytes j : Nat} (hj : j < rowBytes) :
    (rowSlice m r rowBytes)[j]? = m.data[r * m.step + j]? := by
  rw [rowSlice, List.getElem?_take_of_lt hj, List.getElem?_drop]

/-- Specification of the row-copy loop: when every read and every write is
in bounds, the loop succeeds, preserves the output length, leaves the bytes
before and after the written region unchanged, and makes byte `j` of output
row `k` equal to byte `j` of source row `k`. -/
theorem copyRows_spec (m : Mat) (rowBytes : Nat) (n : Nat) :
    ∀ (r : Nat) (out : List Nat),
      (∀ k, r ≤ k → k < r + n → k * m.step + rowBytes ≤ m.data.length) →
      (r + n) * rowBytes ≤ out.length →
      ∃ out2, copyRows m rowBytes r n out = some out2 ∧
        out2.length = out.length ∧
        (∀ i, i < r * rowBytes → out2[i]? = out[i]?) ∧
        (∀ i, (r + n) * rowBytes ≤ i → out2[i]? = out[i]?) ∧
        (∀ k j, r ≤ k → k < r + n → j < rowBytes →
          out2[k * rowBytes + j]? = m.data[k * m.step + j]?) := by
  induction n with
  | zero =>
    intro r out _ _
    exact ⟨out, rfl, rfl, fun _ _ => rfl, fun _ _ => rfl,
      fun k j h1 h2 _ => absurd h2 (by omega)⟩
  | succ n ih =>
    intro r out hread hwrite
    have hr0 : r * m.step + rowBytes ≤ m.data.length := hread r le_rfl (by omega)
    have emono : (r + 1) * rowBytes ≤ (r + (n + 1)) * rowBytes :=
      Nat.mul_le_mul (by omega) le_rfl
    have hw0 : (r + 1) * rowBytes ≤ out.length := le_trans emono hwrite
    have e1 : (r + 1) * rowBytes = r * rowBytes + rowBytes := by ring
    have hslen : (rowSlice m r rowBytes).length = rowBytes := length_rowSlice hr0
    have hplen : r * rowBytes + (rowSlice m r rowBytes).length ≤ out.length := by
      rw [hslen]; omega
    have hlen1 : (writeAt out (r * rowBytes) (rowSlice m r rowBytes)).length = out.length :=
      length_writeAt hplen
    obtain ⟨out2, heq, hlen2, hlo, hhi, hrows⟩ :=
      ih (r + 1) (writeAt out (r * rowBytes) (rowSlice m r rowBytes))
        (fun k h1 h2 => hread k (by omega) (by omega))
        (by
          rw [hlen1]
          have : (r + 1 + n) * rowBytes = (r + (n + 1)) * rowBytes := by ring
          omega)
    have estep : (r + 1 + n) * rowBytes = (r + (n + 1)) * rowBytes := by ring
    refine ⟨out2, ?_, hlen2.trans hlen1, ?_, ?_, ?_⟩
    · rw [copyRows, if_pos ⟨hr0, hw0⟩]
      exact heq
    · intro i hi
      rw [hlo i (by omega), getElem?_writeAt_lt hplen (by omega)]
    · intro i hi
      rw [hhi i (by omega), getElem?_writeAt_ge (by omega) (by omega)]
    · intro k j h1 h2 hj
      rcases Nat.eq_or_lt_of_le h1 with hk | hk
      · subst hk
        have hidx : r * rowBytes + j < (r + 1) * rowBytes := by omega
        rw [hlo (r * rowBytes + j) hidx,
          getElem?_writeAt_mid hplen (by omega) (by omega)]
        have hsub : r * rowBytes + j - r * rowBytes = j := by omega
        rw [hsub, getElem?_rowSlice hj]
      · exact hrows k j (by omega) (by omega) hj

/-- Read bound used by the copy loop: if each row's copied span fits inside
its stride and the data covers `hgt` rows, every row read is in bounds. -/
theorem copyReadBound {stepv len rowBytes hgt : Nat}
    (hle : rowBytes ≤ stepv) (hlen : hgt * stepv ≤ len) :
    ∀ k, k < hgt → k * stepv + rowBytes ≤ len := by
  intro k hk
  have h2 : k * stepv + stepv = (k + 1) * stepv := by ring
  have h3 : (k + 1) * stepv ≤ hgt * stepv := Nat.mul_le_mul (by omega) le_rfl
  omega

/-! ### Concrete fixtures used by witnesses and counterexamples -/

/-- A 1×1 4-channel (RGBA) matrix with contiguous stride. -/
def mat4Test : Mat := ⟨1, 1, 4, 4, [10, 20, 30, 40]⟩

/-- A heap holding `mat4Test` at handle 1. -/
def heap4Test : Heap := fun a => if a = 1 then some mat4Test else none

/-- A 1×1 2-channel matrix: a mat type unsupported by the normalization of
`nativeMatToRgbaBytes`, for which `cv::cvtColor(.., COLOR_BGR2RGBA)`
throws. -/
def mat2Test : Mat := ⟨1, 1, 2, 2, [7, 8]⟩

/-- A heap holding `mat2Test` at handle 1. -/
def heap2Test : Heap := fun a => if a = 1 then some mat2Test else none

/-- A 1×1 4-channel matrix whose row stride (6) exceeds its payload width
(4 bytes), i.e. a padded mat. -/
def mat4Wide : Mat := ⟨1, 1, 4, 6, [1, 2, 3, 4, 9, 9]⟩

/-- A heap holding `mat4Wide` at handle 1. -/
def heap4Wide : Heap := fun a => if a = 1 then some mat4Wide else none

/-- A trivially succeeding stand-in for an external color-conversion
primitive, used to instantiate the pipeline parameters in witnesses. -/
def okConvert : Mat → Except Unit Mat := fun m => .ok m

/-- A trivially succeeding stand-in for `cv::Canny`, used to instantiate
the pipeline parameters in witnesses. -/
def okCanny : Nat → Nat → Mat → Except Unit Mat := fun _ _ m => .ok m

/-! ### Claim theorems -/

/-- C1: the claim says `nativeMatToRgbaBytes` returns `false` whenever the
destination buffer holds fewer than `width * height * 4` bytes and never
writes past its bounds.  The active revision dropped the
`outLen < expectedBytes` check present in the earlier revision: on a valid
1×1 RGBA mat with a 3-byte output array (`width*height*4 - 1`) the copy
loop `memcpy`s 4 bytes into the 3-byte array, an out-of-bounds write
(undefined behaviour), instead of returning `false`. -/
theorem nativeMatToRgbaBytes_undersized_oob :
    nativeMatToRgbaBytes heap4Test 1 (some [0, 0, 0]) 1 1 = .ub := by
  decide

/-- C2: the claim describes the V-then-U chroma interleaving and the
nonzero result handle of `nativeConvertYUV420ToRGB`.  The active revision
replaced the whole conversion with `return 0; // placeholder`: on a valid
4×4 NV21 frame it returns the sentinel 0 and performs no conversion. -/
theorem nativeConvertYUV420ToRGB_placeholder_zero :
    nativeConvertYUV420ToRGB (List.replicate 16 128) (List.replicate 4 128)
      (List.replicate 4 128) 4 4 4 2 = 0 :=
  rfl

/-- C3 counterexample: the claim says `nativeCreateMat` returns the
sentinel whenever `width ≤ 0` or `height ≤ 0`; but the source has no
dimension check, and the `cv::Mat` constructor does not throw for zero
dimensions (it builds an empty mat), so `nativeCreateMat` with width 0
returns the (nonzero) address of the freshly allocated mat. -/
theorem nativeCreateMat_zero_width_not_sentinel :
    nativeCreateMat 1 0 5 0 ≠ 0 := by
  decide

/-- C3 (amended): in the `HAVE_OPENCV` path `nativeCreateMat` returns the
sentinel exactly when the `cv::Mat` constructor throws, i.e. when
`width < 0` or `height < 0` (zero dimensions succeed with an empty mat);
in the stub path it always returns the sentinel. -/
theorem nativeCreateMat_sentinel_iff (a w h t : Int) (ha : a ≠ 0) :
    (nativeCreateMat a w h t = 0 ↔ w < 0 ∨ h < 0) ∧
      nativeCreateMat_stub w h t = 0 := by
  refine ⟨?_, rfl⟩
  have hiff : cvMatConstructorThrows h w = true ↔ h < 0 ∨ w < 0 := by
    simp [cvMatConstructorThrows]
  unfold nativeCreateMat
  split_ifs with hc
  · simp only [true_iff]
    exact (hiff.mp hc).symm
  · constructor
    · intro h0
      exact absurd h0 ha
    · intro hor
      exact absurd (hiff.mpr hor.symm) hc

/-- C3 witness: the amended statement at fresh address 1, width -1,
height 5, type 0. -/
theorem nativeCreateMat_sentinel_iff_witness :
    (1 : Int) ≠ 0 ∧
      ((nativeCreateMat 1 (-1) 5 0 = 0 ↔ (-1 : Int) < 0 ∨ (5 : Int) < 0) ∧
        nativeCreateMat_stub (-1) 5 0 = 0) :=
  ⟨by decide, nativeCreateMat_sentinel_iff 1 (-1) 5 0 (by decide)⟩

/-- C4: the claim says no exception ever propagates out of a bridge entry
point.  The active revision of `nativeMatToRgbaBytes` has no `try`/`catch`
(the earlier revision's one around the `COLOR_BGR2RGBA` fallback was
dropped): on a valid non-empty 2-channel mat the conversion throws
`cv::Exception` and the exception escapes the `extern "C"` function. -/
theorem nativeMatToRgbaBytes_exception_escapes :
    nativeMatToRgbaBytes heap2Test 1 (some [0, 0, 0, 0]) 1 1 = .thrown := by
  decide

/-- C8: `nativeReleaseMat` on the sentinel handle 0 is a no-op in both
compilation paths: it frees nothing, leaves the heap unchanged and hits no
undefined behaviour. -/
theorem nativeReleaseMat_sentinel_noop :
    ∀ heap : Heap, nativeReleaseMat heap 0 = .ret heap ∧
      nativeReleaseMat_stub heap 0 = .ret heap :=
  fun _ => ⟨rfl, rfl⟩

/-- C9: in the active revision `nativeConvertYUV420ToRGB` is a constant
function returning the sentinel 0 for every combination of planes, width,
height and strides, in both the `HAVE_OPENCV` path and the stub path. -/
theorem nativeConvertYUV420ToRGB_constant_sentinel :
    ∀ (y u v : List Nat) (w h ys uvs : Int),
      nativeConvertYUV420ToRGB y u v w h ys uvs = 0 ∧
        nativeConvertYUV420ToRGB_stub y u v w h ys uvs = 0 :=
  fun _ _ _ _ _ _ _ => ⟨rfl, rfl⟩

/-- C10: when `HAVE_OPENCV` is undefined, `processImage` (MainActivity)
returns `true` for every handle, including the sentinel, while the
`nativeProcessImage` stub returns `false` for every handle: the two
grayscale-edges entry points report opposite results. -/
theorem stub_entry_points_disagree :
    ∀ matAddr : Int, processImage_stub matAddr = true ∧
      nativeProcessImage_stub matAddr = false ∧
      processImage_stub matAddr ≠ nativeProcessImage_stub matAddr :=
  fun _ => ⟨rfl, rfl, fun hcon => Bool.noConfusion hcon⟩

/-- C5: in the `HAVE_OPENCV` path `nativeProcessImage` returns `false`
exactly when the handle is the sentinel, the referenced mat is empty, or
the underlying library throws (caught and converted); and on the sentinel
handle it returns `false` with the heap untouched, for any heap. -/
theorem nativeProcessImage_failure_iff (c2g : Mat → Except Unit Mat)
    (canny : Nat → Nat → Mat → Except Unit Mat) (g2r : Mat → Except Unit Mat)
    (heap : Heap) (matAddr : Int) (m : Mat) (hm : heap matAddr = some m) :
    (nativeProcessImage c2g canny g2r heap matAddr = .ret (false, heap) ↔
      matAddr = 0 ∨ m.isEmpty = true ∨ processPipeline c2g canny g2r m = .error ()) ∧
    ∀ hp : Heap, nativeProcessImage c2g canny g2r hp 0 = .ret (false, hp) := by
  constructor
  · by_cases h0 : matAddr = 0
    · simp [nativeProcessImage, h0]
    · unfold nativeProcessImage
      rw [if_neg h0, hm]
      by_cases hemp : m.isEmpty = true
      · simp [hemp, h0]
      · cases hp : processPipeline c2g canny g2r m with
        | ok res => simp [hemp, h0, hp]
        | error e => cases e; simp [hemp, h0, hp]
  · intro hp
    unfold nativeProcessImage
    rw [if_pos rfl]

/-- C5 witness: the failure characterization at the concrete heap holding
`mat4Test` at handle 1, with trivially succeeding primitives. -/
theorem nativeProcessImage_failure_iff_witness :
    heap4Test 1 = some mat4Test ∧
      ((nativeProcessImage okConvert okCanny okConvert heap4Test 1
            = .ret (false, heap4Test) ↔
          (1 : Int) = 0 ∨ mat4Test.isEmpty = true ∨
            processPipeline okConvert okCanny okConvert mat4Test = .error ()) ∧
        ∀ hp : Heap, nativeProcessImage okConvert okCanny okConvert hp 0
            = .ret (false, hp)) :=
  ⟨rfl, nativeProcessImage_failure_iff okConvert okCanny okConvert heap4Test 1 mat4Test rfl⟩

/-- C7: on a valid non-empty handle whose pipeline succeeds,
`nativeProcessImage` converts the RGBA mat to gray, runs `cv::Canny` with
the fixed thresholds 100 and 200, expands the edge map back to RGBA,
writes the result in place over the same handle and returns `true`; and
the MainActivity entry point `processImage` computes the same result. -/
theorem processImage_canny_pipeline (c2g : Mat → Except Unit Mat)
    (canny : Nat → Nat → Mat → Except Unit Mat) (g2r : Mat → Except Unit Mat)
    (heap : Heap) (matAddr : Int) (m gray edges result : Mat)
    (hm : heap matAddr = some m) (h0 : matAddr ≠ 0) (hemp : m.isEmpty = false)
    (h1 : c2g m = .ok gray) (h2 : canny 100 200 gray = .ok edges)
    (h3 : g2r edges = .ok result) :
    nativeProcessImage c2g canny g2r heap matAddr
        = .ret (true, updateHeap heap matAddr result) ∧
      updateHeap heap matAddr result matAddr = some result ∧
      processImage c2g canny g2r heap matAddr
          = nativeProcessImage c2g canny g2r heap matAddr := by
  have hpipe : processPipeline c2g canny g2r m = .ok result := by
    simp [processPipeline, h1, h2, h3]
  refine ⟨?_, ?_, rfl⟩
  · unfold nativeProcessImage
    rw [if_neg h0, hm]
    simp [hemp, hpipe]
  · simp [updateHeap]

/-- C7 witness: the pipeline statement at the concrete heap holding
`mat4Test` at handle 1, with trivially succeeding primitives. -/
theorem processImage_canny_pipeline_witness :
    (heap4Test 1 = some mat4Test ∧ (1 : Int) ≠ 0 ∧ mat4Test.isEmpty = false ∧
        okConvert mat4Test = .ok mat4Test ∧
        okCanny 100 200 mat4Test = .ok mat4Test ∧
        okConvert mat4Test = .ok mat4Test) ∧
      (nativeProcessImage okConvert okCanny okConvert heap4Test 1
          = .ret (true, updateHeap heap4Test 1 mat4Test) ∧
        updateHeap heap4Test 1 mat4Test 1 = some mat4Test ∧
        processImage okConvert okCanny okConvert heap4Test 1
            = nativeProcessImage okConvert okCanny okConvert heap4Test 1) :=
  ⟨⟨rfl, by decide, rfl, rfl, rfl, rfl⟩,
    processImage_canny_pipeline okConvert okCanny okConvert heap4Test 1
      mat4Test mat4Test mat4Test mat4Test rfl (by decide) rfl rfl rfl rfl⟩

/-- C6: on a valid non-empty handle of a supported format (1-, 3- or
4-channel), with matching dimensions and an output array of at least
`width * height * 4` bytes, `nativeMatToRgbaBytes` normalizes the source to
RGBA (4-channel passes through, 1-channel is expanded, 3-channel gets a
synthesized alpha), succeeds, and copies exactly `height` rows of
`width * 4` bytes each: byte `j` of output row `N` equals byte `j` of row
`N` of the normalized source, even when the source row stride exceeds
`width * 4`. -/
theorem nativeMatToRgbaBytes_row_copy (heap : Heap) (matAddr : Int) (m : Mat)
    (out : List Nat) (width height : Int)
    (hm : heap matAddr = some m) (h0 : matAddr ≠ 0)
    (hw : 0 < width) (hh : 0 < height)
    (hrows : m.rows = height.toNat) (hcols : m.cols = width.toNat)
    (hwf : m.wellFormed) (hch : m.channels = 1 ∨ m.channels = 3 ∨ m.channels = 4)
    (hout : height.toNat * (width.toNat * 4) ≤ out.length) :
    ∃ rgba out2, matToRgbaNorm m = some rgba ∧
      nativeMatToRgbaBytes heap matAddr (some out) width height
        = .ret (true, some out2) ∧
      out2.length = out.length ∧
      ∀ N j, N < height.toNat → j < width.toNat * 4 →
        out2[N * (width.toNat * 4) + j]? = rgba.data[N * rgba.step + j]? := by
  obtain ⟨hdat, hfit⟩ := hwf
  have hnorm : ∃ rgba, matToRgbaNorm m = some rgba ∧
      width.toNat * 4 ≤ rgba.step ∧
      rgba.data.length = height.toNat * rgba.step := by
    rcases hch with h1 | h3 | h4
    · refine ⟨cvtGray2Rgba m, by simp [matToRgbaNorm, h1], ?_, ?_⟩
      · simp [cvtGray2Rgba, hcols]
      · simp [cvtGray2Rgba, hrows, hcols]
    · refine ⟨cvtRgb2Rgba m, by simp [matToRgbaNorm, h3], ?_, ?_⟩
      · simp [cvtRgb2Rgba, hcols]
      · simp [cvtRgb2Rgba, hrows, hcols]
    · refine ⟨m, by simp [matToRgbaNorm, h4], ?_, ?_⟩
      · rw [h4] at hfit
        rw [← hcols]
        exact hfit
      · rw [hdat, hrows]
  obtain ⟨rgba, hno, hle, hlen⟩ := hnorm
  have hread : ∀ k, k < height.toNat →
      k * rgba.step + width.toNat * 4 ≤ rgba.data.length :=
    copyReadBound hle (le_of_eq hlen.symm)
  obtain ⟨out2, hcopy, hlen2, _, _, hrowsP⟩ :=
    copyRows_spec rgba (width.toNat * 4) height.toNat 0 out
      (fun k _ hk => hread k (by omega))
      (by simpa using hout)
  have hemp : m.isEmpty = false := by
    simp only [Mat.isEmpty, hrows, hcols, Bool.or_eq_false_iff,
      decide_eq_false_iff_not]
    omega
  refine ⟨rgba, out2, hno, ?_, hlen2, ?_⟩
  · have hguard : ¬(matAddr = 0 ∨ width ≤ 0 ∨ height ≤ 0) := by
      push_neg
      exact ⟨h0, by omega, by omega⟩
    unfold nativeMatToRgbaBytes
    simp only [hm, hemp, hno, hcopy, if_neg hguard, Bool.false_eq_true, if_false]
  · intro N j hN hj
    simpa using hrowsP N j (Nat.zero_le N) (by omega) hj

/-- C6 witness: the row-copy statement at a concrete 1×1 RGBA mat whose
stride (6) exceeds its payload width (4), with an exactly-sized output
array. -/
theorem nativeMatToRgbaBytes_row_copy_witness :
    (heap4Wide 1 = some mat4Wide ∧ (1 : Int) ≠ 0 ∧ (0 : Int) < 1 ∧
        mat4Wide.rows = (1 : Int).toNat ∧ mat4Wide.cols = (1 : Int).toNat ∧
        Mat.wellFormed mat4Wide ∧
        (mat4Wide.channels = 1 ∨ mat4Wide.channels = 3 ∨ mat4Wide.channels = 4) ∧
        (1 : Int).toNat * ((1 : Int).toNat * 4) ≤ [0, 0, 0, 0].length) ∧
      (∃ rgba out2, matToRgbaNorm mat4Wide = some rgba ∧
        nativeMatToRgbaBytes heap4Wide 1 (some [0, 0, 0, 0]) 1 1
          = .ret (true, some out2) ∧
        out2.length = [0, 0, 0, 0].length ∧
        ∀ N j, N < (1 : Int).toNat → j < (1 : Int).toNat * 4 →
          out2[N * ((1 : Int).toNat * 4) + j]? = rgba.data[N * rgba.step + j]?) :=
  ⟨⟨rfl, by decide, by decide, rfl, rfl, ⟨rfl, by decide⟩,
      Or.inr (Or.inr rfl), by decide⟩,
    nativeMatToRgbaBytes_row_copy heap4Wide 1 mat4Wide [0, 0, 0, 0] 1 1 rfl
      (by decide) (by decide) (by decide) rfl rfl ⟨rfl, by decide⟩
      (Or.inr (Or.inr rfl)) (by decide)⟩
